import Mathlib

/-!
Verification of the local development engine of qriososls.

The development shallowly embeds the Go sources into Lean:

* strings are Lean `String`s, with the `strings` / `path/filepath`
  operations used by the code re-implemented over `String.data`
  (lists of characters) so that everything kernel-evaluates;
* the filesystem is abstracted to the data the code inspects: a function
  directory is the list of file names it contains, a build invocation is
  an oracle `String → Bool` giving each function's toolchain exit status;
* the reactor loop of `watchForChanges` becomes a state machine driven by
  a time-stamped list of filesystem events.

Sources embedded: `internal/engine/local/local.go`,
`internal/engine/local/runtime/runtime.go` (factory and detection),
`internal/engine/runtime_map.go`.
-/

/-! ## String and path helpers (models of Go `strings` / `path/filepath`) -/

/-- Model of Go `unicode.ToLower` restricted to ASCII, which is the only
range exercised by runtime identifiers: uppercase ASCII letters are shifted
by 32, every other character is kept. -/
def charToLower (c : Char) : Char :=
  if 65 ≤ c.toNat ∧ c.toNat ≤ 90 then Char.ofNat (c.toNat + 32) else c

/-- Model of Go `strings.ToLower`. -/
def toLowerStr (s : String) : String :=
  String.mk (s.data.map charToLower)

/-- Model of Go `strings.HasPrefix pre s` (note the argument order:
the candidate prefix comes first). -/
def strHasPre (pre s : String) : Bool :=
  List.isPrefixOf pre.data s.data

/-- Contiguous-sublist test on character lists, the core of
`strings.Contains`. -/
def hasSubList (pat : List Char) : List Char → Bool
  | [] => pat.isEmpty
  | c :: rest => List.isPrefixOf pat (c :: rest) || hasSubList pat rest

/-- Model of Go `strings.Contains s pat`. -/
def strContains (s pat : String) : Bool :=
  hasSubList pat.data s.data

/-- Model of Go `strings.HasSuffix s suf`. -/
def strEndsWith (s suf : String) : Bool :=
  List.isSuffixOf suf.data s.data

/-- Model of Go `filepath.Base` for non-empty clean paths without a
trailing separator: the part of the path after its final `/`. -/
def basePath (p : String) : String :=
  String.mk ((p.data.reverse.takeWhile (fun c => c ≠ '/')).reverse)

/-- Model of Go `filepath.Dir` for clean relative paths: everything before
the final `/`, or `.` when the path has no separator. -/
def dirOfCode (p : String) : String :=
  if p.data.any (fun c => c = '/') then
    String.mk (((p.data.reverse.dropWhile (fun c => c ≠ '/')).drop 1).reverse)
  else "."

/-- Model of Go `filepath.Join root p` for a clean root without trailing
separator and a clean relative `p` (the two shapes the engine produces). -/
def joinPath (root p : String) : String :=
  if p == "." then root else root ++ "/" ++ p

/-! ## Runtime kinds and the runtime factory
(`internal/engine/local/runtime/runtime.go` plus the three variant files) -/

/-- Closed set of runtime kinds provided by the factory: `GolangRuntime`,
`NodeJSRuntime`, `PythonRuntime`. -/
inductive Runtime
  | golang
  | nodejs
  | python
deriving DecidableEq, Repr

/-- The `NeedsBuild` method of each variant: `true` for Go
(`nodejs.go` and `python.go` both return `false`). -/
def Runtime.NeedsBuild : Runtime → Bool
  | .golang => true
  | .nodejs => false
  | .python => false

/-- Embedding of `RuntimeFactory.GetRuntime`: lowercase the declared AWS
identifier, then match `provided.al2`/`provided` exactly and the
`go`/`node`/`python` families by prefix; anything else is the
`unsupported AWS Lambda runtime` error, modelled as `none`. -/
def GetRuntime (awsRuntime : String) : Option Runtime :=
  let rt := toLowerStr awsRuntime
  if rt == "provided.al2" || rt == "provided" then some .golang
  else if strHasPre "go" rt then some .golang
  else if strHasPre "node" rt then some .nodejs
  else if strHasPre "python" rt then some .python
  else none

/-- Embedding of `hasGoFiles`: `filepath.Glob(dir/"*.go")` is non-empty,
i.e. some file name in the directory ends in `.go`. -/
def hasGoFiles (files : List String) : Bool :=
  files.any (fun f => strEndsWith f ".go")

/-- Embedding of `hasNodeJSFiles`: `package.json` stats successfully or
some file name matches `*.js`. -/
def hasNodeJSFiles (files : List String) : Bool :=
  files.contains "package.json" || files.any (fun f => strEndsWith f ".js")

/-- Embedding of `hasPythonFiles`: `requirements.txt` stats successfully or
some file name matches `*.py`. -/
def hasPythonFiles (files : List String) : Bool :=
  files.contains "requirements.txt" || files.any (fun f => strEndsWith f ".py")

/-- Embedding of `RuntimeFactory.GetRuntimeFromFunction`: marker checks in
source order (Go, then Node.js, then Python); no marker is the
`could not detect runtime` error, modelled as `none`. -/
def GetRuntimeFromFunction (files : List String) : Option Runtime :=
  if hasGoFiles files then some .golang
  else if hasNodeJSFiles files then some .nodejs
  else if hasPythonFiles files then some .python
  else none

/-! ## The template runtime mapper (`internal/engine/runtime_map.go`) -/

/-- AWS Lambda runtime constants reachable from `toLambdaRuntime`. -/
inductive LambdaRuntimeId
  | nodejs20x
  | nodejs18x
  | python312
  | python311
  | java17
  | dotnet8
  | ruby32
  | providedAl2
deriving DecidableEq, Repr

/-- ASCII whitespace test used to model Go `strings.TrimSpace`. -/
def isSpaceChar (c : Char) : Bool :=
  c = ' ' || c = '\t' || c = '\n' || c = '\r'

/-- Model of Go `strings.TrimSpace` for ASCII whitespace. -/
def trimSpace (s : String) : String :=
  String.mk (((s.data.dropWhile isSpaceChar).reverse.dropWhile isSpaceChar).reverse)

/-- The normalisation pipeline of `toLambdaRuntime`: trim, lowercase, then
remove every `_`, `-` and space (the three `strings.ReplaceAll` calls with
an empty replacement are exactly a character filter). -/
def lambdaKey (s : String) : String :=
  String.mk ((toLowerStr (trimSpace s)).data.filter
    (fun c => c ≠ '_' ∧ c ≠ '-' ∧ c ≠ ' '))

/-- Embedding of `toLambdaRuntime`: switch on the normalised key;
an unknown key returns Go `nil`, modelled as `none`. -/
def toLambdaRuntime (s : String) : Option LambdaRuntimeId :=
  let key := lambdaKey s
  if key == "nodejs20.x" || key == "nodejs20x" || key == "nodejs20" then some .nodejs20x
  else if key == "nodejs18.x" || key == "nodejs18x" || key == "nodejs18" then some .nodejs18x
  else if key == "python3.12" || key == "python312" then some .python312
  else if key == "python3.11" || key == "python311" then some .python311
  else if key == "java17" then some .java17
  else if key == "dotnet8" || key == "dotnet8.0" || key == "dotnet80" || key == "dotnetcore8" then some .dotnet8
  else if key == "ruby3.2" || key == "ruby32" then some .ruby32
  else if key == "provided.al2" || key == "providedal2" || key == "provided" || key == "go1.x" || key == "go1x" || key == "go" then some .providedAl2
  else none

/-- C2: runtime detection precedence. In every function directory the first
matching marker wins with the fixed order Go (compiled source) over Node.js
(manifest with lockfile) over Python (interpreter with requirements), and a
directory with no matching marker yields the detection error (`none`),
never a runtime. -/
theorem detection_precedence_first_marker_wins (files : List String) :
    (hasGoFiles files = true → GetRuntimeFromFunction files = some Runtime.golang) ∧
    (hasGoFiles files = false → hasNodeJSFiles files = true →
      GetRuntimeFromFunction files = some Runtime.nodejs) ∧
    (hasGoFiles files = false → hasNodeJSFiles files = false →
      hasPythonFiles files = true → GetRuntimeFromFunction files = some Runtime.python) ∧
    (hasGoFiles files = false → hasNodeJSFiles files = false →
      hasPythonFiles files = false → GetRuntimeFromFunction files = none) := by
  refine ⟨?_, ?_, ?_, ?_⟩ <;> intros <;> simp_all [GetRuntimeFromFunction]

/-- Witness for C2 at a directory carrying all three markers at once:
detection returns the Go kind. -/
theorem detection_precedence_first_marker_wins_witness :
    hasGoFiles ["main.go", "package.json", "requirements.txt"] = true ∧
    GetRuntimeFromFunction ["main.go", "package.json", "requirements.txt"] =
      some Runtime.golang :=
  ⟨by decide,
   (detection_precedence_first_marker_wins
     ["main.go", "package.json", "requirements.txt"]).1 (by decide)⟩

/-- C7 counterexample: `GetRuntime` does not strip separators, so the
spec's example pair does not resolve to the same kind — `provided.al2`
resolves to the Go kind while `Provided_AL2` is rejected as unsupported. -/
theorem resolve_not_separator_insensitive :
    GetRuntime "provided.al2" = some Runtime.golang ∧
    GetRuntime "Provided_AL2" = none := by
  decide

/-- C7 amended: `GetRuntime` normalises only by lowercasing, so resolution
is insensitive to letter case (identifiers with the same lowercasing
resolve identically) but not to separator characters; the template mapper
`toLambdaRuntime` is additionally insensitive to `_`, `-` and spaces
(identifiers with the same normalised key map identically). -/
theorem resolve_case_insensitive_only :
    (∀ s t : String, toLowerStr s = toLowerStr t → GetRuntime s = GetRuntime t) ∧
    (∀ s t : String, lambdaKey s = lambdaKey t → toLambdaRuntime s = toLambdaRuntime t) := by
  constructor
  · intro s t h
    simp only [GetRuntime]
    rw [h]
  · intro s t h
    simp only [toLambdaRuntime]
    rw [h]

/-- Witness for C7 amended at concrete identifiers: `GO1.X` and `go1.x`
resolve to the same kind, and a pair differing in `_` versus `-` agrees
under the template mapper. -/
theorem resolve_case_insensitive_only_witness :
    GetRuntime "GO1.X" = GetRuntime "go1.x" ∧
    toLambdaRuntime "provided_al2" = toLambdaRuntime "Provided-AL2" :=
  ⟨resolve_case_insensitive_only.1 "GO1.X" "go1.x" (by decide),
   resolve_case_insensitive_only.2 "provided_al2" "Provided-AL2" (by decide)⟩

/-! ## Configuration and runtime resolution
(`initializeRuntimes` in `internal/engine/local/local.go`) -/

/-- Model of one entry of `config.ServerlessConfig.Functions`: the declared
runtime identifier (empty string when absent, as in Go), the code path
relative to the project root, and — standing in for the filesystem — the
list of file names in the function's directory, which is all the detection
helpers inspect. -/
structure LambdaFunc where
  runtime : String
  code : String
  dirFiles : List String
deriving DecidableEq, Repr

/-- Model of `config.ServerlessConfig` as the engine reads it: the project
root and the function map, fixed to one iteration order as a list (Go map
iteration order is unspecified; every theorem below holds for each order by
instantiating the list accordingly). -/
structure ServerlessConfig where
  rootPath : String
  functions : List (String × LambdaFunc)
deriving DecidableEq, Repr

/-- Per-function body of `initializeRuntimes`: try the configured runtime
first via `GetRuntime`, fall back to directory detection when that fails,
and detect directly when no runtime is declared. -/
def resolveRuntime (fn : LambdaFunc) : Option Runtime :=
  if fn.runtime ≠ "" then
    match GetRuntime fn.runtime with
    | some rt => some rt
    | none => GetRuntimeFromFunction fn.dirFiles
  else
    GetRuntimeFromFunction fn.dirFiles

/-- Embedding of `initializeRuntimes`: resolve each function in order and
return the name-to-runtime mapping, or stop at the first function whose
resolution and detection both fail with the
`error determining runtime for ...` error. -/
def initializeRuntimes : List (String × LambdaFunc) → Except String (List (String × Runtime))
  | [] => Except.ok []
  | (funcName, fn) :: rest =>
    match resolveRuntime fn with
    | some rt =>
      match initializeRuntimes rest with
      | Except.ok m => Except.ok ((funcName, rt) :: m)
      | Except.error e => Except.error e
    | none => Except.error ("error determining runtime for " ++ funcName)

/-! ## The initial build pass
(`buildAllFunctions` / `buildFunction` in `internal/engine/local/local.go`) -/

/-- Embedding of `buildFunction`: the toolchain invocation `rt.Build` is an
external process, abstracted by the oracle `buildExit` giving its exit
status per function; a failing exit produces the `build failed for ...`
error (the toolchain's own stderr text is abstracted away). The build
mutex only serialises calls and does not affect the result. -/
def buildFunction (buildExit : String → Bool) (funcName : String) : Except String Unit :=
  if buildExit funcName then Except.ok ()
  else Except.error ("build failed for " ++ funcName)

/-- Embedding of `buildAllFunctions`, instrumented to also return, in
order, the functions on which `buildFunction` was actually invoked: for
each function whose runtime needs a build, build it and — exactly as the
Go loop does — return the wrapped `failed to build ...` error immediately
when the build fails; functions that need no build are skipped. -/
def buildAllFunctions (buildExit : String → Bool) :
    List (String × Runtime) → List String × Except String Unit
  | [] => ([], Except.ok ())
  | (funcName, rt) :: rest =>
    if rt.NeedsBuild then
      match buildFunction buildExit funcName with
      | Except.ok _ =>
        let r := buildAllFunctions buildExit rest
        (funcName :: r.1, r.2)
      | Except.error e =>
        ([funcName], Except.error ("failed to build " ++ funcName ++ ": " ++ e))
    else buildAllFunctions buildExit rest

/-- Model of the first two steps of `LocalRunner.Start`: initialise the
runtimes and run the initial build pass; an error from either step aborts
the startup sequence. -/
def startBuildPhase (buildExit : String → Bool) (funcs : List (String × LambdaFunc)) :
    Except String (List (String × Runtime)) :=
  match initializeRuntimes funcs with
  | Except.error e => Except.error e
  | Except.ok rts =>
    match (buildAllFunctions buildExit rts).2 with
    | Except.error e => Except.error e
    | Except.ok _ => Except.ok rts

/-- C5: the engine tries the declared identifier first (a resolvable
declared identifier decides the kind, whatever the directory holds), falls
back to directory detection exactly when that resolution fails or no
identifier is declared, and a function failing both makes the whole
startup sequence fail with an error naming that function, so no resolved
environment is produced. -/
theorem runtime_resolution_fallback_and_fatal :
    (∀ (fn : LambdaFunc) (k : Runtime),
      GetRuntime fn.runtime = some k → resolveRuntime fn = some k) ∧
    (∀ fn : LambdaFunc, GetRuntime fn.runtime = none →
      resolveRuntime fn = GetRuntimeFromFunction fn.dirFiles) ∧
    (∀ (funcs : List (String × LambdaFunc)) (m : String) (fn : LambdaFunc),
      funcs.find? (fun p => (resolveRuntime p.2).isNone) = some (m, fn) →
      initializeRuntimes funcs = Except.error ("error determining runtime for " ++ m) ∧
      ∀ buildExit, startBuildPhase buildExit funcs =
        Except.error ("error determining runtime for " ++ m)) := by
  refine ⟨?_, ?_, ?_⟩
  · intro fn k h
    by_cases he : fn.runtime = ""
    · rw [he] at h
      have hx : GetRuntime "" = none := by decide
      rw [hx] at h
      cases h
    · simp [resolveRuntime, he, h]
  · intro fn h
    by_cases he : fn.runtime = ""
    · simp [resolveRuntime, he]
    · simp [resolveRuntime, he, h]
  · intro funcs
    induction funcs with
    | nil => intro m fn h; simp [List.find?] at h
    | cons p rest ih =>
      intro m fn h
      obtain ⟨n, f⟩ := p
      by_cases hr : (resolveRuntime f).isNone
      · rw [List.find?_cons_of_pos _ (by simpa using hr)] at h
        obtain ⟨hm, _⟩ : n = m ∧ f = fn := by
          constructor <;> [exact congrArg Prod.fst (Option.some_injective _ h); exact congrArg Prod.snd (Option.some_injective _ h)]
        subst hm
        have hnone : resolveRuntime f = none := Option.isNone_iff_eq_none.mp hr
        constructor
        · simp [initializeRuntimes, hnone]
        · intro buildExit
          simp [startBuildPhase, initializeRuntimes, hnone]
      · rw [List.find?_cons_of_neg _ (by simpa using hr)] at h
        have hsome : ∃ rt, resolveRuntime f = some rt := by
          cases hx : resolveRuntime f with
          | none => rw [hx] at hr; simp at hr
          | some rt => exact ⟨rt, rfl⟩
        obtain ⟨rt, hrt⟩ := hsome
        obtain ⟨h1, h2⟩ := ih m fn h
        constructor
        · simp [initializeRuntimes, hrt, h1]
        · intro buildExit
          have := h2 buildExit
          simp only [startBuildPhase, initializeRuntimes, hrt, h1]

/-- Function whose declared runtime resolves: `go1.x` is in the `go`
family. -/
def okFn : LambdaFunc :=
  { runtime := "go1.x", code := "ok/main.go", dirFiles := ["main.go"] }

/-- Function whose declared runtime `ruby3.2` is unsupported by the factory
and whose directory carries no detection marker. -/
def badFn : LambdaFunc :=
  { runtime := "ruby3.2", code := "bad/handler.rb", dirFiles := ["handler.rb"] }

/-- Configuration mixing a resolvable and an unresolvable function. -/
def mixedFuncs : List (String × LambdaFunc) := [("ok", okFn), ("bad", badFn)]

/-- Witness for C5 at a concrete configuration: the declared `go1.x` of the
first function resolves to the Go kind, and the second function, failing
both resolution and detection, makes initialisation and the startup
sequence fail with an error naming it. -/
theorem runtime_resolution_fallback_and_fatal_witness :
    resolveRuntime okFn = some Runtime.golang ∧
    initializeRuntimes mixedFuncs = Except.error "error determining runtime for bad" ∧
    startBuildPhase (fun _ => true) mixedFuncs =
      Except.error "error determining runtime for bad" :=
  ⟨runtime_resolution_fallback_and_fatal.1 okFn Runtime.golang (by decide),
   (runtime_resolution_fallback_and_fatal.2.2 mixedFuncs "bad" badFn (by decide)).1,
   (runtime_resolution_fallback_and_fatal.2.2 mixedFuncs "bad" badFn (by decide)).2
     (fun _ => true)⟩

/-- Two Go functions as resolved for the initial build pass. -/
def twoGoFns : List (String × Runtime) := [("a", Runtime.golang), ("b", Runtime.golang)]

/-- Build oracle under which only function `a` fails. -/
def failAOnly : String → Bool := fun n => !(n == "a")

/-- C1 counterexample: with two functions that both need a build and a
failing first build, the initial pass invokes the builder only on `a` even
though `b` also needs a build, and returns `a`'s wrapped failure at once —
the coordinator aborts the batch at the first failure instead of
continuing with the remaining functions. -/
theorem initial_build_pass_aborts_cex :
    (buildAllFunctions failAOnly twoGoFns).1 = ["a"] ∧
    (twoGoFns.filter (fun p => p.2.NeedsBuild)).map Prod.fst = ["a", "b"] ∧
    (buildAllFunctions failAOnly twoGoFns).2 =
      Except.error "failed to build a: build failed for a" := by
  refine ⟨rfl, rfl, rfl⟩

/-- C1 amended: the initial build pass attempts the functions that need a
build in order only up to and including the first one whose build fails,
reports that first failure immediately (skipping every later function),
and attempts all of them with overall success only when no build fails. -/
theorem initial_build_pass_stops_at_first_failure
    (buildExit : String → Bool) (fns : List (String × Runtime)) :
    ((∀ p ∈ fns, p.2.NeedsBuild = true → buildExit p.1 = true) →
      buildAllFunctions buildExit fns =
        ((fns.filter (fun p => p.2.NeedsBuild)).map Prod.fst, Except.ok ())) ∧
    (∀ (m : String) (rt : Runtime),
      (fns.filter (fun p => p.2.NeedsBuild)).find? (fun p => !buildExit p.1) = some (m, rt) →
      buildAllFunctions buildExit fns =
        (((fns.filter (fun p => p.2.NeedsBuild)).takeWhile
            (fun p => buildExit p.1)).map Prod.fst ++ [m],
         Except.error ("failed to build " ++ m ++ ": " ++ ("build failed for " ++ m)))) := by
  induction fns with
  | nil =>
    constructor
    · intro _; rfl
    · intro m rt h; simp [List.find?] at h
  | cons p rest ih =>
    obtain ⟨n, rt0⟩ := p
    by_cases hnb : rt0.NeedsBuild = true
    · have hfil : ((n, rt0) :: rest).filter (fun p => p.2.NeedsBuild) =
        (n, rt0) :: rest.filter (fun p => p.2.NeedsBuild) := by
        simp [List.filter_cons, hnb]
      by_cases hb : buildExit n = true
      · constructor
        · intro hall
          have hrest := ih.1 (fun q hq hq2 => hall q (List.mem_cons_of_mem _ hq) hq2)
          rw [hfil]
          simp [buildAllFunctions, buildFunction, hnb, hb, hrest]
        · intro m rt h
          rw [hfil, List.find?_cons_of_neg _ (by simpa using hb)] at h
          have hrest := ih.2 m rt h
          rw [hfil, List.takeWhile_cons]
          simp only [hb, if_true]
          simp [buildAllFunctions, buildFunction, hnb, hb, hrest]
      · have hbf : buildExit n = false := by simpa using hb
        constructor
        · intro hall
          have hx := hall (n, rt0) (List.mem_cons_self _ _) hnb
          rw [hx] at hbf
          cases hbf
        · intro m rt h
          rw [hfil, List.find?_cons_of_pos _ (by simp [hbf])] at h
          have hm : n = m := congrArg Prod.fst (Option.some_injective _ h)
          subst hm
          rw [hfil, List.takeWhile_cons]
          simp only [hbf, if_false, Bool.false_eq_true]
          simp [buildAllFunctions, buildFunction, hnb, hbf]
    · have hnb2 : rt0.NeedsBuild = false := by simpa using hnb
      have hfil : ((n, rt0) :: rest).filter (fun p => p.2.NeedsBuild) =
        rest.filter (fun p => p.2.NeedsBuild) := by
        simp [List.filter_cons, hnb2]
      constructor
      · intro hall
        have hrest := ih.1 (fun q hq hq2 => hall q (List.mem_cons_of_mem _ hq) hq2)
        rw [hfil]
        simp [buildAllFunctions, hnb2, hrest]
      · intro m rt h
        rw [hfil] at h
        have hrest := ih.2 m rt h
        rw [hfil]
        simp [buildAllFunctions, hnb2, hrest]

/-- Witness for C1 amended at the counterexample configuration: the pass
stops at `a`, and under an all-success oracle it builds both functions. -/
theorem initial_build_pass_stops_at_first_failure_witness :
    buildAllFunctions failAOnly twoGoFns =
      (["a"], Except.error "failed to build a: build failed for a") ∧
    buildAllFunctions (fun _ => true) twoGoFns = (["a", "b"], Except.ok ()) :=
  ⟨(initial_build_pass_stops_at_first_failure failAOnly twoGoFns).2 "a" Runtime.golang
     (by decide),
   (initial_build_pass_stops_at_first_failure (fun _ => true) twoGoFns).1
     (by decide)⟩

/-! ## The change watcher and reactor loop
(`watchForChanges` and helpers in `internal/engine/local/local.go`) -/

/-- Filesystem event operations of fsnotify as seen by the loop. -/
inductive FsOp
  | create
  | write
  | remove
  | rename
  | chmod
deriving DecidableEq, Repr

/-- An fsnotify event plus its arrival time on the loop's clock in
milliseconds (the Go event carries no time; the stamp models when the
`select` receives it, which is what the debounce timer measures). -/
structure FsEvent where
  op : FsOp
  name : String
  time : Nat
deriving DecidableEq, Repr

/-- Embedding of `shouldIgnoreEvent`: the fixed `ignorePatterns` list, each
pattern matched against the whole event name with `strings.Contains` or
against the base name with `strings.HasSuffix`. -/
def shouldIgnoreEvent (name : String) : Bool :=
  ["~$", ".swp", ".tmp", ".log", "/.git/", "/node_modules/", ".idea/"].any
    (fun pat => strContains name pat || strEndsWith (basePath name) pat)

/-- Embedding of `shouldIgnorePath`: a plain `strings.Contains` test of the
whole path against each entry of `ignoreDirs`. -/
def shouldIgnorePath (path : String) : Bool :=
  [".git", "node_modules", "cdk.out", "tmp"].any (fun d => strContains path d)

/-- Loop body of `findFunctionByPath` over the function map entries: the
first function whose absolute code directory is a string prefix of the path
wins, provided the path is not ignored; no match yields the empty name. -/
def findIn (root : String) (filePath : String) : List (String × LambdaFunc) → String
  | [] => ""
  | (funcName, fn) :: rest =>
    if strHasPre (joinPath root (dirOfCode fn.code)) filePath &&
        !shouldIgnorePath filePath then funcName
    else findIn root filePath rest

/-- Embedding of `findFunctionByPath`. -/
def findFunctionByPath (cfg : ServerlessConfig) (filePath : String) : String :=
  findIn cfg.rootPath filePath cfg.functions

/-- Debounce state of the reactor loop: the `changedFunctions` slice and
the fire time of the armed debounce timer (`none` when unarmed). The Go
`changeSet` map holds exactly the members of the slice and serves only the
duplicate check, so the slice alone carries the state. -/
structure WatchState where
  changedFunctions : List String
  deadline : Option Nat
deriving DecidableEq, Repr

/-- State at loop entry: empty slice, stopped timer. -/
def initialWatchState : WatchState :=
  { changedFunctions := [], deadline := none }

/-- One execution of the events branch of the `select` in
`watchForChanges` on an event arriving at `e.time`: drop CHMOD events and
ignored names; otherwise map the name to its owning function and, when one
owns it, add it to the slice unless already present and re-arm the
debounce timer 800ms from now. `handleFileCreation` (the staging-area copy
on Create events) touches none of this state and is not modelled. -/
def processEvent (cfg : ServerlessConfig) (st : WatchState) (e : FsEvent) : WatchState :=
  if e.op == FsOp.chmod || shouldIgnoreEvent e.name then st
  else
    let funcName := findFunctionByPath cfg e.name
    if funcName ≠ "" then
      let st1 :=
        if st.changedFunctions.contains funcName then st
        else { st with changedFunctions := st.changedFunctions ++ [funcName] }
      { st1 with deadline := some (e.time + 800) }
    else st

/-- Run of the reactor loop over a time-ordered list of filesystem events,
collecting the rebuild batches handed to `handleFileChange`, each tagged
with its fire time. The `select` is scheduled deterministically: when the
armed timer's fire time has been reached by the next event's arrival, the
timer branch runs first (emitting the accumulated slice as one batch when
non-empty and clearing the state, exactly as the Go branch does); after
the last event the armed timer, if any, fires during the silence. -/
def runEvents (cfg : ServerlessConfig) (st : WatchState) :
    List FsEvent → List (Nat × List String)
  | [] =>
    match st.deadline with
    | some d => if st.changedFunctions ≠ [] then [(d, st.changedFunctions)] else []
    | none => []
  | e :: rest =>
    match st.deadline with
    | some d =>
      if d ≤ e.time then
        (if st.changedFunctions ≠ [] then [(d, st.changedFunctions)] else []) ++
          runEvents cfg (processEvent cfg initialWatchState e) rest
      else runEvents cfg (processEvent cfg st e) rest
    | none => runEvents cfg (processEvent cfg st e) rest

/-- Paths matching an entry of `ignoreDirs` never resolve to an owning
function: the guard of every iteration of `findFunctionByPath` fails. -/
theorem findIn_of_ignored (root filePath : String)
    (h : shouldIgnorePath filePath = true) :
    ∀ fns : List (String × LambdaFunc), findIn root filePath fns = "" := by
  intro fns
  induction fns with
  | nil => rfl
  | cons p rest ih =>
    obtain ⟨n, fn⟩ := p
    simp [findIn, h, ih]

/-- C10: the ignore check of the rebuild path-mapping is a plain substring
test, so every path containing `.git`, `node_modules`, `cdk.out` or `tmp`
anywhere — even inside a legitimate name such as a `tmpl` directory —
resolves to no owning function and can never trigger a rebuild: processing
any event for such a path leaves the reactor state untouched. -/
theorem ignore_is_plain_substring_test (cfg : ServerlessConfig) (p : String)
    (h : strContains p ".git" = true ∨ strContains p "node_modules" = true ∨
      strContains p "cdk.out" = true ∨ strContains p "tmp" = true) :
    findFunctionByPath cfg p = "" ∧
    ∀ (st : WatchState) (op : FsOp) (t : Nat),
      processEvent cfg st { op := op, name := p, time := t } = st := by
  have hip : shouldIgnorePath p = true := by
    rcases h with h | h | h | h <;> simp [shouldIgnorePath, h]
  have hfind : findFunctionByPath cfg p = "" :=
    findIn_of_ignored cfg.rootPath p hip cfg.functions
  refine ⟨hfind, ?_⟩
  intro st op t
  by_cases hc : (op == FsOp.chmod || shouldIgnoreEvent p) = true
  · simp [processEvent, hc]
  · simp [processEvent, hc, hfind]

/-- Configuration with a function directory whose own path contains the
substring `tmp` inside the legitimate directory name `tmpl`. -/
def tmplCfg : ServerlessConfig :=
  { rootPath := "/r",
    functions :=
      [("api", { runtime := "go1.x", code := "api/tmpl/handler.go",
                 dirFiles := ["handler.go"] })] }

/-- Witness for C10 at a source file inside the `tmpl` directory of its own
function: no owner is found and the pending state never changes. -/
theorem ignore_is_plain_substring_test_witness :
    findFunctionByPath tmplCfg "/r/api/tmpl/handler.go" = "" ∧
    processEvent tmplCfg initialWatchState
      { op := FsOp.write, name := "/r/api/tmpl/handler.go", time := 7 } =
      initialWatchState :=
  ⟨(ignore_is_plain_substring_test tmplCfg "/r/api/tmpl/handler.go"
      (by decide)).1,
   (ignore_is_plain_substring_test tmplCfg "/r/api/tmpl/handler.go"
      (by decide)).2 initialWatchState FsOp.write 7⟩

/-- Configuration with two functions whose source directories are nested:
`b`'s directory `/r/src/sub` lies inside `a`'s directory `/r/src`. -/
def nestedCfg : ServerlessConfig :=
  { rootPath := "/r",
    functions :=
      [("a", { runtime := "go1.x", code := "src/handler.go",
               dirFiles := ["handler.go"] }),
       ("b", { runtime := "go1.x", code := "src/sub/handler.go",
               dirFiles := ["handler.go"] })] }

/-- C4 counterexample: for a path inside `b`'s directory, the longest
matching source directory is `b`'s (`/r/src/sub`, 10 characters, against
`a`'s `/r/src`, 6 characters, both prefixes of the path), yet
`findFunctionByPath` returns `a` — the first match in iteration order wins,
not the longest prefix. -/
theorem owner_mapping_not_longest_cex :
    findFunctionByPath nestedCfg "/r/src/sub/file.go" = "a" ∧
    strHasPre "/r/src/sub" "/r/src/sub/file.go" = true ∧
    strHasPre "/r/src" "/r/src/sub/file.go" = true ∧
    "/r/src".length < "/r/src/sub".length := by
  refine ⟨by decide, by decide, by decide, by decide⟩

/-- C4 amended: the reactor maps a non-ignored path to the first function
in iteration order whose source directory is a string prefix of the path
(not the longest-prefix owner); a path owned by no function's source
directory yields the empty name and is discarded, triggering no rebuild. -/
theorem owner_mapping_first_match (cfg : ServerlessConfig) (p : String) :
    findFunctionByPath cfg p =
      (((cfg.functions.find? (fun q =>
          strHasPre (joinPath cfg.rootPath (dirOfCode q.2.code)) p &&
          !shouldIgnorePath p)).map Prod.fst).getD "") ∧
    (∀ (st : WatchState) (op : FsOp) (t : Nat),
      findFunctionByPath cfg p = "" →
      processEvent cfg st { op := op, name := p, time := t } = st) := by
  constructor
  · show findIn cfg.rootPath p cfg.functions = _
    induction cfg.functions with
    | nil => rfl
    | cons q rest ih =>
      obtain ⟨n, fn⟩ := q
      by_cases hq : (strHasPre (joinPath cfg.rootPath (dirOfCode fn.code)) p &&
          !shouldIgnorePath p) = true
      · simp only [findIn, List.find?]
        rw [hq]
        simp
      · have hq2 : (strHasPre (joinPath cfg.rootPath (dirOfCode fn.code)) p &&
            !shouldIgnorePath p) = false := by simpa using hq
        simp only [findIn, List.find?]
        rw [hq2]
        simpa using ih
  · intro st op t hfind
    by_cases hc : (op == FsOp.chmod || shouldIgnoreEvent p) = true
    · simp [processEvent, hc]
    · simp [processEvent, hc, hfind]

/-- Witness for C4 amended at the nested configuration: the result agrees
with the first-match characterisation at the counterexample path, and a
path owned by nobody leaves the reactor state untouched. -/
theorem owner_mapping_first_match_witness :
    findFunctionByPath nestedCfg "/r/src/sub/file.go" =
      (((nestedCfg.functions.find? (fun q =>
          strHasPre (joinPath nestedCfg.rootPath (dirOfCode q.2.code))
            "/r/src/sub/file.go" &&
          !shouldIgnorePath "/r/src/sub/file.go")).map Prod.fst).getD "") ∧
    processEvent nestedCfg initialWatchState
      { op := FsOp.write, name := "/other/file.go", time := 3 } =
      initialWatchState :=
  ⟨(owner_mapping_first_match nestedCfg "/r/src/sub/file.go").1,
   (owner_mapping_first_match nestedCfg "/other/file.go").2
     initialWatchState FsOp.write 3 (by decide)⟩

/-- C8: an event whose path matches an ignore rule — a version-control
metadata directory (`.git`), a dependency cache (`node_modules`), the
build-output staging directory (`cdk.out`), or a temporary/swap/log file
suffix — never changes the reactor state: its function is never added to
the pending slice and the timer is not re-armed, so the event contributes
to no rebuild. (For the suffix rules the discard happens immediately in
`shouldIgnoreEvent`; for the directory rules it happens at the
`findFunctionByPath` ownership check, with the same effect.) -/
theorem ignored_event_never_enters_pending (cfg : ServerlessConfig)
    (st : WatchState) (e : FsEvent)
    (h : strContains e.name ".git" = true ∨ strContains e.name "node_modules" = true ∨
      strContains e.name "cdk.out" = true ∨ strEndsWith (basePath e.name) ".tmp" = true ∨
      strEndsWith (basePath e.name) ".swp" = true ∨
      strEndsWith (basePath e.name) ".log" = true) :
    processEvent cfg st e = st := by
  rcases h with h | h | h | h | h | h
  case inl | inr.inl | inr.inr.inl =>
    have hip : shouldIgnorePath e.name = true := by simp [shouldIgnorePath, h]
    have hfind : findFunctionByPath cfg e.name = "" :=
      findIn_of_ignored cfg.rootPath e.name hip cfg.functions
    by_cases hc : (e.op == FsOp.chmod || shouldIgnoreEvent e.name) = true
    · simp [processEvent, hc]
    · simp [processEvent, hc, hfind]
  all_goals
    have hie : shouldIgnoreEvent e.name = true := by simp [shouldIgnoreEvent, h]
    simp [processEvent, hie]

/-- Witness for C8 at a dependency-cache path and a pending state: the
event is dropped and the state survives unchanged. -/
theorem ignored_event_never_enters_pending_witness :
    processEvent nestedCfg { changedFunctions := ["a"], deadline := some 1000 }
      { op := FsOp.write, name := "/r/src/node_modules/pkg/index.js", time := 1200 } =
      { changedFunctions := ["a"], deadline := some 1000 } :=
  ignored_event_never_enters_pending nestedCfg
    { changedFunctions := ["a"], deadline := some 1000 }
    { op := FsOp.write, name := "/r/src/node_modules/pkg/index.js", time := 1200 }
    (by decide)

/-- Burst predicate: starting from a previous event at time `prev`, each
next event arrives no earlier than its predecessor and strictly within the
800ms debounce window that the predecessor armed. -/
def burstWindow : Nat → List FsEvent → Bool
  | _, [] => true
  | prev, e :: rest =>
    (decide (prev ≤ e.time) && decide (e.time < prev + 800)) && burstWindow e.time rest

/-- Arrival time of the last event of a burst, with `t` as the time of the
event preceding the list. -/
def lastEventTime : Nat → List FsEvent → Nat
  | t, [] => t
  | _, e :: rest => lastEventTime e.time rest

/-- Core debounce induction: once one burst event for function `f` has
been recorded (slice `[f]`, timer armed 800ms after time `prev`), every
further event of the burst re-arms the timer without growing the slice,
and the single batch `[f]` fires 800ms after the last event. -/
theorem runEvents_burst (cfg : ServerlessConfig) (f : String)
    (evs : List FsEvent) :
    ∀ prev : Nat,
    (∀ e ∈ evs, (e.op == FsOp.chmod) = false ∧ shouldIgnoreEvent e.name = false ∧
      findFunctionByPath cfg e.name = f ∧ f ≠ "") →
    burstWindow prev evs = true →
    runEvents cfg { changedFunctions := [f], deadline := some (prev + 800) } evs =
      [(lastEventTime prev evs + 800, [f])] := by
  induction evs with
  | nil =>
    intro prev _ _
    simp [runEvents, lastEventTime]
  | cons e rest ih =>
    intro prev hall hw
    obtain ⟨hop, hig, hfind, hf⟩ := hall e (List.mem_cons_self _ _)
    have hw1 : e.time < prev + 800 := by
      simp [burstWindow] at hw
      exact hw.1.2
    have hw2 : burstWindow e.time rest = true := by
      simp [burstWindow] at hw
      exact hw.2
    have hnofire : ¬ (prev + 800 ≤ e.time) := by omega
    have hstep : processEvent cfg { changedFunctions := [f], deadline := some (prev + 800) } e =
        { changedFunctions := [f], deadline := some (e.time + 800) } := by
      simp [processEvent, hop, hig, hfind, hf]
    show runEvents cfg { changedFunctions := [f], deadline := some (prev + 800) } (e :: rest) = _
    simp only [runEvents]
    rw [if_neg hnofire, hstep]
    have := ih e.time (fun x hx => hall x (List.mem_cons_of_mem _ hx)) hw2
    simpa [lastEventTime] using this

/-- C3: a burst of K (at least one) change events all owned by one function
`f`, each arriving within the debounce window of its predecessor and
followed by silence, produces exactly one rebuild batch, containing `f`
exactly once, fired 800ms after the last event of the burst; duplicate
events never add `f` to the pending slice twice. -/
theorem debounce_burst_single_rebuild (cfg : ServerlessConfig) (f : String)
    (e0 : FsEvent) (rest : List FsEvent)
    (hall : ∀ e ∈ e0 :: rest, (e.op == FsOp.chmod) = false ∧
      shouldIgnoreEvent e.name = false ∧ findFunctionByPath cfg e.name = f ∧ f ≠ "")
    (hw : burstWindow e0.time rest = true) :
    runEvents cfg initialWatchState (e0 :: rest) =
      [(lastEventTime e0.time rest + 800, [f])] := by
  obtain ⟨hop, hig, hfind, hf⟩ := hall e0 (List.mem_cons_self _ _)
  have hstep : processEvent cfg { changedFunctions := [], deadline := none } e0 =
      { changedFunctions := [f], deadline := some (e0.time + 800) } := by
    simp [processEvent, hop, hig, hfind, hf]
  show runEvents cfg initialWatchState (e0 :: rest) = _
  simp only [runEvents, initialWatchState]
  rw [hstep]
  exact runEvents_burst cfg f rest e0.time
    (fun x hx => hall x (List.mem_cons_of_mem _ hx)) hw

/-- Configuration with the single function `hello`, used to exercise the
debounce scenario of the spec. -/
def helloCfg : ServerlessConfig :=
  { rootPath := "/r",
    functions := [("hello", { runtime := "", code := "hello/main.go",
                              dirFiles := ["main.go"] })] }

/-- Write event on `hello`'s source file at time `t`. -/
def helloWrite (t : Nat) : FsEvent :=
  { op := FsOp.write, name := "/r/hello/main.go", time := t }

/-- Witness for C3 reproducing the spec scenario: two writes to the same
source file 100ms apart followed by silence yield exactly one rebuild
batch for `hello`, fired 800ms after the second write (time 900). -/
theorem debounce_burst_single_rebuild_witness :
    runEvents helloCfg initialWatchState [helloWrite 0, helloWrite 100] =
      [(900, ["hello"])] :=
  debounce_burst_single_rebuild helloCfg "hello" (helloWrite 0) [helloWrite 100]
    (by decide) (by decide)

/-! ## Rebuild handling for a fired batch
(`handleFileChange` in `internal/engine/local/local.go`) -/

/-- Observable outcome of one iteration of the `handleFileChange` loop. -/
inductive RebuildOutcome
  | rebuilt
  | rebuildFailed
  | skippedNoBuild
deriving DecidableEq, Repr

/-- Outcome of the loop body of `handleFileChange` for one function: when
its runtime needs a build, attempt the build and record success or the
logged failure; otherwise record the logged skip. -/
def rebuildOutcome (rts : String → Runtime) (buildExit : String → Bool)
    (funcName : String) : RebuildOutcome :=
  if (rts funcName).NeedsBuild then
    if buildExit funcName then RebuildOutcome.rebuilt else RebuildOutcome.rebuildFailed
  else RebuildOutcome.skippedNoBuild

/-- Embedding of `handleFileChange`: iterate the changed functions in
order with the resolved-runtime map `rts` and the build oracle
`buildExit`; a failed rebuild is logged and the loop continues to the next
function. Instrumented to return each iteration's outcome. -/
def handleFileChange (rts : String → Runtime) (buildExit : String → Bool) :
    List String → List (String × RebuildOutcome)
  | [] => []
  | funcName :: rest =>
    (funcName,
      if (rts funcName).NeedsBuild then
        if buildExit funcName then RebuildOutcome.rebuilt
        else RebuildOutcome.rebuildFailed
      else RebuildOutcome.skippedNoBuild) :: handleFileChange rts buildExit rest

/-- C6: a fired batch of M pending functions is handled by exactly M
per-function rebuild attempts, one per pending function in order, and each
attempt's outcome depends only on that function's own runtime and build
result — injecting a build failure for one function never changes, let
alone suppresses, the handling of any other function in the batch. -/
theorem batch_rebuilds_independent (rts : String → Runtime)
    (buildExit : String → Bool) (fns : List String) :
    (handleFileChange rts buildExit fns).length = fns.length ∧
    handleFileChange rts buildExit fns =
      fns.map (fun g => (g, rebuildOutcome rts buildExit g)) ∧
    (∀ (f : String) (buildExit2 : String → Bool),
      (∀ g, g ≠ f → buildExit2 g = buildExit g) →
      ∀ (i : Nat) (g : String), fns[i]? = some g → g ≠ f →
        (handleFileChange rts buildExit2 fns)[i]? =
          (handleFileChange rts buildExit fns)[i]?) := by
  have hmap : ∀ bex : String → Bool, handleFileChange rts bex fns =
      fns.map (fun g => (g, rebuildOutcome rts bex g)) := by
    intro bex
    induction fns with
    | nil => rfl
    | cons a rest ih => simp [handleFileChange, rebuildOutcome, ih]
  refine ⟨by rw [hmap]; exact List.length_map _ _, hmap buildExit, ?_⟩
  intro f bex2 hagree i g hg hgf
  rw [hmap bex2, hmap buildExit, List.getElem?_map, List.getElem?_map, hg]
  simp [rebuildOutcome, hagree g hgf]

/-- Runtime map assigning the Go kind to every function. -/
def allGoRts : String → Runtime := fun _ => Runtime.golang

/-- Witness for C6 at the batch `[a, b]` with an injected failure of `a`:
`b`'s entry is the same as under the all-success oracle, and the batch
still yields one outcome per pending function. -/
theorem batch_rebuilds_independent_witness :
    (handleFileChange allGoRts failAOnly ["a", "b"])[1]? =
      (handleFileChange allGoRts (fun _ => true) ["a", "b"])[1]? ∧
    (handleFileChange allGoRts failAOnly ["a", "b"]).length = 2 :=
  ⟨(batch_rebuilds_independent allGoRts (fun _ => true) ["a", "b"]).2.2 "a" failAOnly
     (fun g hg => by simp [failAOnly, hg]) 1 "b" (by decide) (by decide),
   (batch_rebuilds_independent allGoRts failAOnly ["a", "b"]).1⟩

/-! ## Shutdown (`Stop` in `internal/engine/local/local.go`) -/

/-- State of `LocalRunner` as `Stop` observes and changes it: whether
`stopChan` has been closed, the gateway-emulator process handle (`nil` or
a pid), and the watcher handle. `Stop` closes the channel at most once and
clears neither handle, exactly like the Go method. -/
structure RunnerState where
  stopChanClosed : Bool
  apiProcess : Option Nat
  watcherPresent : Bool
deriving DecidableEq, Repr

/-- Externally visible actions a `Stop` call can take. -/
inductive StopAction
  | closeStopChan
  | killProcess (pid : Nat)
  | closeWatcher
deriving DecidableEq, Repr

/-- Embedding of `Stop`: the `select` on `stopChan` skips the close when
the channel is already closed and closes it otherwise; then the process is
killed when a handle is present and the watcher is closed when present
(neither handle is reset, matching the Go code). Returns the new state and
the actions taken, in order. -/
def Stop (s : RunnerState) : RunnerState × List StopAction :=
  ({ s with stopChanClosed := true },
    (if s.stopChanClosed then [] else [StopAction.closeStopChan]) ++
    (match s.apiProcess with
     | some pid => [StopAction.killProcess pid]
     | none => []) ++
    (if s.watcherPresent then [StopAction.closeWatcher] else []))

/-- Actions taken by `n` sequential calls of `Stop` starting from `s`. -/
def stopTrace (s : RunnerState) : Nat → List StopAction
  | 0 => []
  | n + 1 => (Stop s).2 ++ stopTrace (Stop s).1 n

/-- Once the stop channel is closed, no later sequential `Stop` call ever
closes it again. -/
theorem stopTrace_closed_no_close (s : RunnerState)
    (hs : s.stopChanClosed = true) :
    ∀ n, (stopTrace s n).count StopAction.closeStopChan = 0 := by
  intro n
  induction n generalizing s with
  | zero => rfl
  | succ m ih =>
    have hsucc : (Stop s).1.stopChanClosed = true := rfl
    simp only [stopTrace, List.count_append, ih (Stop s).1 hsucc, Nat.add_zero]
    simp only [Stop, hs, if_true]
    cases hap : s.apiProcess <;> cases hw : s.watcherPresent <;>
      simp [List.count_append, List.count_cons, List.count_nil]

/-- C9: `Stop` is idempotent over any number of sequential calls. The
first call marks the stop channel closed, kills the gateway-emulator
process when one is running and closes the watcher; every later call
observes the already-signalled stop and performs no second close — across
any sequence of calls the channel is closed at most once (exactly once
when starting from a running engine), so no call can fail on a
double-close. -/
theorem stop_idempotent (s : RunnerState) (n : Nat) :
    (Stop s).1 = { s with stopChanClosed := true } ∧
    (s.stopChanClosed = true → StopAction.closeStopChan ∉ (Stop s).2) ∧
    (stopTrace s n).count StopAction.closeStopChan ≤ 1 ∧
    (s.stopChanClosed = false → 1 ≤ n →
      (stopTrace s n).count StopAction.closeStopChan = 1) ∧
    (∀ pid, s.apiProcess = some pid → StopAction.killProcess pid ∈ (Stop s).2) ∧
    (s.watcherPresent = true → StopAction.closeWatcher ∈ (Stop s).2) := by
  refine ⟨rfl, ?_, ?_, ?_, ?_, ?_⟩
  · intro hs
    simp only [Stop, hs, if_true]
    cases hap : s.apiProcess <;> cases hw : s.watcherPresent <;> simp
  · cases hs : s.stopChanClosed
    · cases n with
      | zero => simp [stopTrace]
      | succ m =>
        have hsucc : (Stop s).1.stopChanClosed = true := rfl
        rw [stopTrace, List.count_append,
          stopTrace_closed_no_close (Stop s).1 hsucc m]
        simp only [Stop, hs, if_false]
        cases hap : s.apiProcess <;> cases hw : s.watcherPresent <;>
          simp [List.count_append, List.count_cons]
    · rw [stopTrace_closed_no_close s hs n]
      omega
  · intro hs hn
    cases n with
    | zero => omega
    | succ m =>
      have hsucc : (Stop s).1.stopChanClosed = true := rfl
      rw [stopTrace, List.count_append,
        stopTrace_closed_no_close (Stop s).1 hsucc m]
      simp only [Stop, hs, if_false]
      cases hap : s.apiProcess <;> cases hw : s.watcherPresent <;>
        simp [List.count_append, List.count_cons]
  · intro pid hpid
    simp [Stop, hpid]
  · intro hw
    simp [Stop, hw]

/-- Running engine: open stop channel, gateway process with pid 7,
watcher present. -/
def runningEngine : RunnerState :=
  { stopChanClosed := false, apiProcess := some 7, watcherPresent := true }

/-- Witness for C9 at a running engine (open channel, gateway pid 7,
watcher present) stopped three times in a row: the channel is closed
exactly once, the process is killed and the watcher closed on the first
call, and the state after the first call reports the channel closed. -/
theorem stop_idempotent_witness :
    (stopTrace runningEngine 3).count StopAction.closeStopChan = 1 ∧
    StopAction.killProcess 7 ∈ (Stop runningEngine).2 ∧
    StopAction.closeWatcher ∈ (Stop runningEngine).2 :=
  ⟨(stop_idempotent runningEngine 3).2.2.2.1 rfl (by decide),
   (stop_idempotent runningEngine 3).2.2.2.2.1 7 rfl,
   (stop_idempotent runningEngine 3).2.2.2.2.2 rfl⟩
